import Mathlib

/-!
Shallow embedding of `logfile_check.py` (fahda-logfile).

Conventions of the embedding:
- Python `int` becomes `Int`; Python `list` becomes `List`; a Python value that
  may be `None` becomes an `Option`.
- A Python function that can raise an exception (`ValueError` from tuple
  unpacking, `int()` parsing, or `min`/`max` on an empty list) is embedded as a
  function into `Option`, with `none` for the raising runs.
- Python's `sorted(someSet)` is embedded either as a sort of the deduplicated
  list (duplicates) or, where the set is carved out of an already ascending
  enumeration, as a filter of that enumeration (missing timestamps); in both
  cases the value is the unique ascending duplicate-free listing of the set,
  which is exactly what `sorted` of a set returns.
- `dict` with string keys becomes an association list `List (String × _)` kept
  in insertion order, as Python dicts are.
-/

/-- Worker for `pySplit`: scan the characters, accumulating the current token
reversed; whitespace ends the current token (if any) and empty tokens are
dropped, as `str.split()` with no arguments does. -/
def splitWsAux : List Char → List Char → List String
  | [], acc => if acc.isEmpty then [] else [String.mk acc.reverse]
  | c :: rest, acc =>
    if c.isWhitespace then
      if acc.isEmpty then splitWsAux rest []
      else String.mk acc.reverse :: splitWsAux rest []
    else splitWsAux rest (c :: acc)

/-- Python `str.split()` with no arguments: split on runs of whitespace and
drop empty tokens. (Whitespace is modelled as `Char.isWhitespace`, i.e.
space/tab/newline/carriage-return, the whitespace that occurs in log files.) -/
def pySplit (s : String) : List String :=
  splitWsAux s.data []

/-- Worker for `pySplitOn`: scan the characters, the separator always closes
the current token (Python `str.split(sep)` keeps empty tokens). -/
def splitSepAux (sep : Char) : List Char → List Char → List String
  | [], acc => [String.mk acc.reverse]
  | c :: rest, acc =>
    if c = sep then String.mk acc.reverse :: splitSepAux sep rest []
    else splitSepAux sep rest (c :: acc)

/-- Python `str.split(sep)` with a one-character separator. -/
def pySplitOn (s : String) (sep : Char) : List String :=
  splitSepAux sep s.data []

/-- Tail of the digit grammar of Python `int(...)`: after the first digit, the
remaining characters are digits, with single underscores allowed only between
digits. -/
def digitsTail : List Char → Bool
  | [] => true
  | '_' :: c :: rest => c.isDigit && digitsTail rest
  | c :: rest => c.isDigit && digitsTail rest

/-- Numeric value of a digit string (underscores already stripped). -/
def digitsVal (l : List Char) : Nat :=
  l.foldl (fun a c => a * 10 + (c.toNat - '0'.toNat)) 0

/-- Parse an unsigned decimal digit string the way Python `int(...)` does:
nonempty, starts with a digit, underscores only between digits. -/
def parseDigits : List Char → Option Nat
  | [] => none
  | c :: rest =>
    if c.isDigit && digitsTail rest then
      some (digitsVal ((c :: rest).filter (fun x => x != '_')))
    else none

/-- Python `int(token)` on a whitespace-free token: optional sign followed by
a decimal digit string; `none` models the `ValueError`. -/
def pyParseInt (s : String) : Option Int :=
  match s.data with
  | '+' :: rest => (parseDigits rest).map (fun n => (n : Int))
  | '-' :: rest => (parseDigits rest).map (fun n => -(n : Int))
  | l => (parseDigits l).map (fun n => (n : Int))

/-- One line of `read_logfile`'s loop body up to the data-structure update:
`(project_number, run_number, clone_number, timestamp_in_ps) = line.split()`
followed by `simulation_id = f"{project}:{run}:{clone}"` and
`int(timestamp_in_ps)`. `none` models the `ValueError` raised when the line
does not split into exactly four fields or the fourth is not an integer
literal; the first three fields are kept as strings, exactly as in the code. -/
def parseLine (line : String) : Option (String × Int) :=
  match pySplit line with
  | [project_number, run_number, clone_number, timestamp_in_ps] =>
    (pyParseInt timestamp_in_ps).map
      (fun t => (project_number ++ ":" ++ run_number ++ ":" ++ clone_number, t))
  | _ => none

/-- The dict update of `read_logfile`: a brand-new key is appended at the end
with a one-element list (Python dicts keep insertion order), an existing key
has the timestamp appended to its list. (The `logfile_data[simulation_id] is
None` disjunct of the source is dead — values are never `None` — so it does
not appear.) -/
def addEntry : List (String × List Int) → String → Int → List (String × List Int)
  | [], simulation_id, t => [(simulation_id, [t])]
  | (k, v) :: rest, simulation_id, t =>
    if k = simulation_id then (k, v ++ [t]) :: rest
    else (k, v) :: addEntry rest simulation_id t

/-- The loop of `read_logfile` over the file's lines, threading the dict; a
line that fails to parse propagates its `ValueError` (the `bind` on `none`). -/
def readLines : List (String × List Int) → List String → Option (List (String × List Int))
  | data, [] => some data
  | data, line :: rest =>
    (parseLine line).bind (fun p => readLines (addEntry data p.1 p.2) rest)

/-- `read_logfile`: the input file as a list of lines, the result as the dict
from simulation id `project:run:clone` to that simulation's timestamps in
input order; `none` models the uncaught `ValueError` aborting the run. -/
def read_logfile (lines : List String) : Option (List (String × List Int)) :=
  readLines [] lines

/-- Specification-side view of the ingested file: the parsed
`(simulation_id, timestamp)` pair of every line that parses. -/
def pairsOf (lines : List String) : List (String × Int) :=
  lines.filterMap parseLine

/-- Specification-side view of one simulation's timestamps: the timestamps of
the pairs carrying `simulation_id`, in input order. -/
def selectTs (pairs : List (String × Int)) (simulation_id : String) : List Int :=
  (pairs.filter (fun p => p.1 == simulation_id)).map Prod.snd

/-- Python `range(start, stop, 100)` as an ascending list. The element count
is `max 0 ⌈(stop - start) / 100⌉`, realised as `((stop - start + 99).toNat) / 100`. -/
def pyRange100 (start stop : Int) : List Int :=
  (List.range (((stop - start + 99).toNat) / 100)).map (fun (i : Nat) => start + 100 * (i : Int))

/-- `find_missing_timestamps`: `None`/empty input gives no result; otherwise
the expected values are `range(min_correct, timestamps[-1], 100)` with
`min_correct = timestamps[0] if timestamps[0] == 0 else 0`, and the result is
the ascending listing of expected values not occurring in the input
(`sorted(set(range(...)).difference(timestamps))`, here a filter of the
already-ascending range). -/
def find_missing_timestamps : Option (List Int) → Option (List Int)
  | none => none
  | some timestamps =>
    if timestamps.length = 0 then none
    else
      let min_correct_timestamp := if timestamps.headI = 0 then timestamps.headI else 0
      let max_correct_timestamp := timestamps.getLastD 0
      let correct_time_values_in_ps := pyRange100 min_correct_timestamp max_correct_timestamp
      some (correct_time_values_in_ps.filter (fun v => decide (v ∉ timestamps)))

/-- `find_duplicate_timestamps`: `None` or fewer than two elements gives no
result; otherwise the ascending listing of the set of values occurring more
than once (`sorted(set(t for t in timestamps if timestamps.count(t) > 1))`). -/
def find_duplicate_timestamps : Option (List Int) → Option (List Int)
  | none => none
  | some timestamps =>
    if timestamps.length < 2 then none
    else
      some (List.insertionSort (fun a b => a ≤ b)
        ((timestamps.filter (fun t => decide (timestamps.count t > 1))).dedup))

/-- `is_strictly_increasing`: vacuously true on `None`/empty, otherwise
`all(x < y and x + 100 == y for x, y in zip(timestamps, timestamps[1:]))`. -/
def is_strictly_increasing : Option (List Int) → Bool
  | none => true
  | some timestamps =>
    if timestamps.length = 0 then true
    else (timestamps.zip timestamps.tail).all
      (fun p => decide (p.1 < p.2) && decide (p.1 + 100 = p.2))

/-- `is_last_ts_in_thousands`: `None` gives `True`; otherwise
`max(timestamps) % 1000 == 0`, where `max` of an empty list raises
(modelled by `none`). Python `%` on a positive modulus agrees with `Int.emod`. -/
def is_last_ts_in_thousands : Option (List Int) → Option Bool
  | none => some true
  | some timestamps => timestamps.max?.map (fun m => decide (m % 1000 = 0))

/-- `SimCheckResult` with the default attribute values of `__init__`. -/
structure SimCheckResult where
  missing_timestamps : Option (List Int)
  duplicate_timestamps : Option (List Int)
  is_last_ts_in_thousands : Bool
  simulation_id : String
  last_timestamp : Option Int
deriving DecidableEq, Repr

/-- The guard `not is_strictly_increasing(timestamps) or min(timestamps) != 0`
of `check`, with Python's short-circuit `or`: `min` (which raises on an empty
list, modelled by `none`) is only evaluated when the sequence is strictly
increasing. -/
def check_missing_guard (timestamps : List Int) : Option Bool :=
  if is_strictly_increasing (some timestamps) then
    timestamps.min?.map (fun m => decide (m ≠ 0))
  else some true

/-- The body of `check`'s loop for one simulation: build a `SimCheckResult`,
setting `missing_timestamps` only under `check_missing_guard`, then the
duplicate, terminal-value and `max(timestamps)` fields. `none` models the
`ValueError` from `min`/`max` on an empty sequence. -/
def checkOne (timestamps : List Int) : Option SimCheckResult :=
  (check_missing_guard timestamps).bind fun doMissing =>
    (is_last_ts_in_thousands (some timestamps)).bind fun lastOk =>
      (timestamps.max?).bind fun lastTs =>
        some { missing_timestamps :=
                 if doMissing then find_missing_timestamps (some timestamps) else none
               duplicate_timestamps := find_duplicate_timestamps (some timestamps)
               is_last_ts_in_thousands := lastOk
               simulation_id := ""
               last_timestamp := some lastTs }

/-- The loop of `check` over the ingested mapping, keyed like its input; an
exception in one entry aborts the run. -/
def check_data : List (String × List Int) → Option (List (String × SimCheckResult))
  | [] => some []
  | (simulation_id, timestamps) :: rest =>
    (checkOne timestamps).bind fun r =>
      (check_data rest).bind fun restOut => some ((simulation_id, r) :: restOut)

/-- `check` itself: ingest the lines, then run the per-simulation checker. -/
def check (lines : List String) : Option (List (String × SimCheckResult)) :=
  (read_logfile lines).bind check_data

/-- `format_simulation_id`: empty id returns `None` (which makes the caller
raise), a non-`a:b:c` shape raises in the tuple unpacking; both are `none`
here. Otherwise `PROJ{p}/RUN{r}/CLONE{c}`. -/
def format_simulation_id (simulation_id : String) : Option String :=
  if simulation_id = "" then none
  else
    match pySplitOn simulation_id ':' with
    | [project_number, run_number, clone_number] =>
      some ("PROJ" ++ project_number ++ "/RUN" ++ run_number ++ "/CLONE" ++ clone_number)
    | _ => none

/-- Python `str(x)` for an attribute that is an int or `None`. -/
def pyStr : Option Int → String
  | none => "None"
  | some n => toString n

/-- The condition `x is None or len(x) == 0` used by `print_to_file`. -/
def isNoneOrEmpty : Option (List Int) → Bool
  | none => true
  | some l => decide (l.length = 0)

/-- The condition `x is not None and len(x) > 0` used by `print_to_file`. -/
def isSomeNonempty : Option (List Int) → Bool
  | none => false
  | some l => decide (l.length > 0)

/-- `", ".join(str(v) for v in l)`. -/
def joinInts (l : List Int) : String :=
  ", ".intercalate (l.map toString)

/-- The per-simulation body of `print_to_file` after the id line: either the
single `No issues found` line (and `continue`), or the conditional missing /
duplicate / terminal-value issue lines in that order. -/
def render_sim_lines (r : SimCheckResult) : List String :=
  if isNoneOrEmpty r.missing_timestamps && isNoneOrEmpty r.duplicate_timestamps
      && r.is_last_ts_in_thousands then
    ["\tNo issues found"]
  else
    (if isSomeNonempty r.missing_timestamps then
        ["\tMissing timestamps: " ++ joinInts (r.missing_timestamps.getD [])]
      else []) ++
    (if isSomeNonempty r.duplicate_timestamps then
        ["\tDuplicate timestamps: " ++ joinInts (r.duplicate_timestamps.getD [])]
      else []) ++
    (if r.is_last_ts_in_thousands then []
      else ["\tLast timestamp (" ++ pyStr r.last_timestamp ++ "ps) is not in thousands"])

/-- One iteration of `print_to_file`'s loop: the formatted id line followed by
the per-simulation body lines; `none` models the raise on a malformed id. -/
def render_sim (simulation_id : String) (r : SimCheckResult) : Option (List String) :=
  (format_simulation_id simulation_id).map (fun fid => fid :: render_sim_lines r)

/-- `print_to_file` as the list of lines written to the output file. -/
def print_to_file : List (String × SimCheckResult) → Option (List String)
  | [] => some []
  | (simulation_id, r) :: rest =>
    (render_sim simulation_id r).bind fun lines =>
      (print_to_file rest).bind fun restLines => some (lines ++ restLines)

/-! ## Helper lemmas -/

/-- Membership in `pyRange100 0 m`: exactly the multiples of 100 in `[0, m)`. -/
lemma mem_pyRange100_zero (m v : Int) :
    v ∈ pyRange100 0 m ↔ 0 ≤ v ∧ v < m ∧ (100 : Int) ∣ v := by
  unfold pyRange100
  rw [List.mem_map]
  constructor
  · rintro ⟨i, hi, rfl⟩
    rw [List.mem_range] at hi
    have h1 : (i + 1) * 100 ≤ (m - 0 + 99).toNat :=
      (Nat.le_div_iff_mul_le (by norm_num)).mp (Nat.succ_le_of_lt hi)
    refine ⟨by omega, by omega, ⟨(i : Int), by ring⟩⟩
  · rintro ⟨h0, hm, k, hk⟩
    refine ⟨k.toNat, ?_, by omega⟩
    rw [List.mem_range]
    have h1 : (k.toNat + 1) * 100 ≤ (m - 0 + 99).toNat := by omega
    exact Nat.lt_of_succ_le ((Nat.le_div_iff_mul_le (by norm_num)).mpr h1)

/-- `pyRange100` is strictly ascending. -/
lemma pairwise_pyRange100 (s m : Int) : (pyRange100 s m).Pairwise (· < ·) := by
  unfold pyRange100
  refine List.Pairwise.map _ (fun a b hab => ?_) (List.pairwise_lt_range _)
  have hab' : (a : Int) < (b : Int) := by exact_mod_cast hab
  omega

/-- The no-op lower-bound branch of `find_missing_timestamps` always yields 0. -/
lemma if_headI_eq_zero (ts : List Int) : (if ts.headI = 0 then ts.headI else 0) = 0 := by
  split <;> omega

/-- `find_missing_timestamps` on a nonempty list, unfolded. -/
lemma find_missing_eq (ts : List Int) (h : ts ≠ []) :
    find_missing_timestamps (some ts) =
      some ((pyRange100 0 (ts.getLastD 0)).filter (fun v => decide (v ∉ ts))) := by
  have hlen : ¬ ts.length = 0 := by simpa [List.length_eq_zero] using h
  simp [find_missing_timestamps, hlen, if_headI_eq_zero]

/-- The left fold of `max` lands in the list and bounds every element. -/
lemma foldl_max_spec (tl : List Int) : ∀ a : Int,
    tl.foldl max a ∈ a :: tl ∧ ∀ x ∈ a :: tl, x ≤ tl.foldl max a := by
  induction tl with
  | nil =>
    intro a
    refine ⟨by simp, ?_⟩
    intro x hx
    simp only [List.mem_singleton] at hx
    simp [hx]
  | cons b tl ih =>
    intro a
    have h := ih (max a b)
    rw [List.foldl_cons]
    constructor
    · rcases List.mem_cons.mp h.1 with hm | hm
      · rcases max_choice a b with hab | hab
        · rw [List.mem_cons]
          exact Or.inl (hm.trans hab)
        · rw [List.mem_cons, List.mem_cons]
          exact Or.inr (Or.inl (hm.trans hab))
      · exact List.mem_cons_of_mem _ (List.mem_cons_of_mem _ hm)
    · intro x hx
      rcases List.mem_cons.mp hx with h1 | hx'
      · rw [h1]
        exact le_trans (le_max_left a b) (h.2 _ (List.mem_cons_self _ _))
      · rcases List.mem_cons.mp hx' with h2 | hx''
        · rw [h2]
          exact le_trans (le_max_right a b) (h.2 _ (List.mem_cons_self _ _))
        · exact h.2 _ (List.mem_cons_of_mem _ hx'')

/-- Maximum characterisation of `List.max?` over `Int`. -/
lemma max?_spec {ts : List Int} {m : Int} (h : ts.max? = some m) :
    m ∈ ts ∧ ∀ x ∈ ts, x ≤ m := by
  have hne : ts ≠ [] := by rintro rfl; simp at h
  obtain ⟨a, tl, rfl⟩ := List.exists_cons_of_ne_nil hne
  rw [List.max?_cons'] at h
  injection h with h
  subst h
  exact foldl_max_spec tl a

/-! ## C1 -/

/-- C1: for every nonempty timestamp sequence, `find_missing_timestamps`
returns the ascending list of every multiple of 100 in `[0, last element)`
(anchored at 0 regardless of the first element) that does not occur in the
sequence; for an absent or empty sequence it returns no result. -/
theorem C1_find_missing_timestamps_spec :
    find_missing_timestamps none = none ∧
    find_missing_timestamps (some []) = none ∧
    ∀ (ts : List Int) (h : ts ≠ []),
      ∃ l, find_missing_timestamps (some ts) = some l ∧
        l.Pairwise (· < ·) ∧
        ∀ v : Int, v ∈ l ↔ ((100 : Int) ∣ v ∧ 0 ≤ v ∧ v < ts.getLast h ∧ v ∉ ts) := by
  refine ⟨rfl, rfl, ?_⟩
  intro ts h
  refine ⟨_, find_missing_eq ts h, ?_, ?_⟩
  · exact List.Pairwise.sublist (List.filter_sublist _) (pairwise_pyRange100 0 _)
  · intro v
    have hlast : ts.getLastD 0 = ts.getLast h := by
      rw [List.getLastD_eq_getLast?, List.getLast?_eq_getLast ts h]
      rfl
    simp only [List.mem_filter, mem_pyRange100_zero, decide_eq_true_eq, hlast]
    tauto

/-- C1 witness: the concrete case from the spec. -/
theorem C1_witness :
    ∃ l, find_missing_timestamps (some [0, 100, 200, 500, 600, 1000, 1400]) = some l ∧
      l.Pairwise (· < ·) ∧
      ∀ v : Int, v ∈ l ↔ ((100 : Int) ∣ v ∧ 0 ≤ v ∧
        v < [(0 : Int), 100, 200, 500, 600, 1000, 1400].getLast (by decide) ∧
        v ∉ [(0 : Int), 100, 200, 500, 600, 1000, 1400]) :=
  C1_find_missing_timestamps_spec.2.2 [0, 100, 200, 500, 600, 1000, 1400] (by decide)

/-! ## C2 -/

/-- C2 counterexample: the claim says an empty sequence is vacuously true, but
the code computes `max([])`, which raises, so no boolean is produced. -/
theorem C2_counterexample :
    is_last_ts_in_thousands (some ([] : List Int)) ≠ some true := by decide

/-- C2 amended: for a nonempty sequence the check is true iff the maximum is a
multiple of 1000; an absent sequence is vacuously true; an empty sequence
makes the `max` computation fail, producing no result. -/
theorem C2_is_last_ts_in_thousands_spec :
    is_last_ts_in_thousands none = some true ∧
    is_last_ts_in_thousands (some []) = none ∧
    ∀ (ts : List Int) (m : Int), ts.max? = some m →
      (is_last_ts_in_thousands (some ts) = some true ↔ m % 1000 = 0) := by
  refine ⟨rfl, rfl, ?_⟩
  intro ts m hm
  simp [is_last_ts_in_thousands, hm]

/-- C2 witness. -/
theorem C2_witness :
    is_last_ts_in_thousands (some [1100, 1200]) = some true ↔ (1200 : Int) % 1000 = 0 :=
  C2_is_last_ts_in_thousands_spec.2.2 [1100, 1200] 1200 (by decide)

/-! ## C4 -/

/-- `is_strictly_increasing` as a chain condition over consecutive pairs. -/
lemma is_strictly_increasing_iff_chain (ts : List Int) :
    is_strictly_increasing (some ts) = true ↔
      ts.Chain' (fun x y => x < y ∧ y - x = 100) := by
  induction ts with
  | nil => simp [is_strictly_increasing]
  | cons a l ih =>
    cases l with
    | nil => simp [is_strictly_increasing]
    | cons b l' =>
      rw [List.chain'_cons, ← ih]
      simp only [is_strictly_increasing, List.length_cons, List.tail_cons,
        if_neg (by omega : ¬ (l'.length + 1 + 1 = 0)),
        if_neg (by omega : ¬ (l'.length + 1 = 0)),
        List.zip_cons_cons, List.all_cons, Bool.and_eq_true, decide_eq_true_eq]
      constructor
      · rintro ⟨⟨h1, h2⟩, h3⟩
        exact ⟨⟨h1, by omega⟩, h3⟩
      · rintro ⟨⟨h1, h2⟩, h3⟩
        exact ⟨⟨h1, by omega⟩, h3⟩

/-- C4: the strictly-increasing test is true iff every consecutive pair
`(x, y)` in input order satisfies `x < y` and `y - x = 100`; it is vacuously
true for an absent sequence and for sequences of length 0 or 1. -/
theorem C4_is_strictly_increasing_spec :
    is_strictly_increasing none = true ∧
    (∀ ts : List Int, is_strictly_increasing (some ts) = true ↔
      ts.Chain' (fun x y => x < y ∧ y - x = 100)) ∧
    (∀ ts : List Int, ts.length ≤ 1 → is_strictly_increasing (some ts) = true) := by
  refine ⟨rfl, is_strictly_increasing_iff_chain, ?_⟩
  intro ts hlen
  rw [is_strictly_increasing_iff_chain]
  match ts, hlen with
  | [], _ => exact List.chain'_nil
  | [a], _ => exact List.chain'_singleton a

/-- C4 witness. -/
theorem C4_witness : is_strictly_increasing (some [(500 : Int)]) = true :=
  C4_is_strictly_increasing_spec.2.2 [500] (by decide)

/-! ## C5 -/

/-- C5: for sequences of length at least 2, `find_duplicate_timestamps`
returns the strictly ascending (hence duplicate-free) list whose members are
exactly the values occurring at least twice in the input; shorter or absent
sequences yield no result. -/
theorem C5_find_duplicate_timestamps_spec :
    find_duplicate_timestamps none = none ∧
    (∀ ts : List Int, ts.length < 2 → find_duplicate_timestamps (some ts) = none) ∧
    ∀ ts : List Int, 2 ≤ ts.length →
      ∃ l, find_duplicate_timestamps (some ts) = some l ∧
        l.Pairwise (· < ·) ∧
        ∀ v : Int, v ∈ l ↔ 2 ≤ ts.count v := by
  refine ⟨rfl, ?_, ?_⟩
  · intro ts h
    simp [find_duplicate_timestamps, h]
  · intro ts h
    have hnlt : ¬ ts.length < 2 := by omega
    have heq : find_duplicate_timestamps (some ts) =
        some (List.insertionSort (fun a b => a ≤ b)
          ((ts.filter (fun t => decide (ts.count t > 1))).dedup)) := by
      simp [find_duplicate_timestamps, hnlt]
    refine ⟨_, heq, ?_, ?_⟩
    · have hsorted : List.Sorted (fun a b => a ≤ b)
          (List.insertionSort (fun a b => a ≤ b)
            ((ts.filter (fun t => decide (ts.count t > 1))).dedup)) :=
        List.sorted_insertionSort _ _
      have hnodup : (List.insertionSort (fun a b => a ≤ b)
          ((ts.filter (fun t => decide (ts.count t > 1))).dedup)).Nodup :=
        (List.perm_insertionSort _ _).nodup_iff.mpr (List.nodup_dedup _)
      exact List.Sorted.lt_of_le hsorted hnodup
    · intro v
      rw [List.mem_insertionSort, List.mem_dedup, List.mem_filter]
      simp only [decide_eq_true_eq]
      constructor
      · rintro ⟨_, hc⟩; omega
      · intro hc
        exact ⟨List.count_pos_iff.mp (by omega), by omega⟩

/-- C5 witness: the concrete case from the spec. -/
theorem C5_witness :
    ∃ l, find_duplicate_timestamps (some [0, 100, 200, 300, 500, 500, 600, 1200, 1200]) = some l ∧
      l.Pairwise (· < ·) ∧
      ∀ v : Int, v ∈ l ↔ 2 ≤ ([(0 : Int), 100, 200, 300, 500, 500, 600, 1200, 1200].count v) :=
  C5_find_duplicate_timestamps_spec.2.2 [0, 100, 200, 300, 500, 500, 600, 1200, 1200] (by decide)

/-! ## C3 -/

/-- `List.lookup` through a cons, with propositional equality. -/
lemma lookup_cons_eq {β : Type} (k : String) (b : β) (es : List (String × β)) (a : String) :
    List.lookup a ((k, b) :: es) = if a = k then some b else List.lookup a es := by
  rw [List.lookup_cons]
  by_cases h : a = k
  · have hb : (a == k) = true := beq_iff_eq.mpr h
    rw [hb, if_pos h]
  · have hb : (a == k) = false := beq_eq_false_iff_ne.mpr h
    rw [hb, if_neg h]

/-- Effect of the dict update on lookups. -/
lemma lookup_addEntry (data : List (String × List Int)) (k : String) (t : Int) (a : String) :
    (addEntry data k t).lookup a =
      if a = k then some (((data.lookup k).getD []) ++ [t]) else data.lookup a := by
  induction data with
  | nil =>
    show List.lookup a [(k, [t])] = _
    rw [lookup_cons_eq]
    by_cases h : a = k
    · rw [if_pos h, if_pos h, List.lookup_nil]
      rfl
    · rw [if_neg h, if_neg h, List.lookup_nil]
  | cons hd tl ih =>
    obtain ⟨x, v⟩ := hd
    by_cases hxk : x = k
    · subst hxk
      have he : addEntry ((x, v) :: tl) x t = (x, v ++ [t]) :: tl := by
        simp [addEntry]
      have hxx : List.lookup x ((x, v) :: tl) = some v := by
        rw [lookup_cons_eq, if_pos rfl]
      rw [he, hxx, lookup_cons_eq, lookup_cons_eq]
      by_cases hax : a = x
      · rw [if_pos hax, if_pos hax]
        rfl
      · rw [if_neg hax, if_neg hax, if_neg hax]
    · have he : addEntry ((x, v) :: tl) k t = (x, v) :: addEntry tl k t := by
        simp [addEntry, hxk]
      have hkx : List.lookup k ((x, v) :: tl) = List.lookup k tl := by
        have hkxne : ¬ k = x := fun e => hxk e.symm
        rw [lookup_cons_eq, if_neg hkxne]
      rw [he, lookup_cons_eq, ih, hkx, lookup_cons_eq]
      by_cases hax : a = x
      · have hak : ¬ a = k := fun e => hxk (hax.symm.trans e)
        rw [if_pos hax, if_neg hak, if_pos hax]
      · rw [if_neg hax, if_neg hax]

/-- `readLines` fails exactly when some remaining line fails to parse. -/
lemma readLines_eq_none_iff :
    ∀ (lines : List String) (acc : List (String × List Int)),
      (readLines acc lines = none ↔ ∃ line ∈ lines, parseLine line = none) := by
  intro lines
  induction lines with
  | nil => intro acc; simp [readLines]
  | cons hd tl ih =>
    intro acc
    simp only [readLines]
    cases hp : parseLine hd with
    | none => simp [hp]
    | some q => simp [hp, ih]

/-- `selectTs` through a cons. -/
lemma selectTs_cons (k : String) (t : Int) (ps : List (String × Int)) (a : String) :
    selectTs ((k, t) :: ps) a =
      if k = a then t :: selectTs ps a else selectTs ps a := by
  by_cases h : k = a
  · simp [selectTs, List.filter_cons, beq_iff_eq.mpr h, h]
  · simp [selectTs, List.filter_cons, beq_eq_false_iff_ne.mpr h, h]

/-- The lookup of the ingested dict, described by the parsed pairs of the
lines, generalised over the accumulator. -/
lemma readLines_lookup :
    ∀ (lines : List String) (acc data : List (String × List Int)),
      readLines acc lines = some data → ∀ a : String,
      (∀ v, acc.lookup a = some v →
        data.lookup a = some (v ++ selectTs (pairsOf lines) a)) ∧
      (acc.lookup a = none →
        data.lookup a =
          if (pairsOf lines).any (fun p => p.1 == a) then
            some (selectTs (pairsOf lines) a)
          else none) := by
  intro lines
  induction lines with
  | nil =>
    intro acc data h a
    simp only [readLines] at h
    injection h with h
    subst h
    constructor
    · intro v hv
      simp [pairsOf, selectTs, hv]
    · intro hv
      simp [pairsOf, selectTs, hv]
  | cons hd tl ih =>
    intro acc data h a
    simp only [readLines] at h
    cases hp : parseLine hd with
    | none => rw [hp] at h; simp at h
    | some q =>
      obtain ⟨k, t⟩ := q
      rw [hp] at h
      simp only [Option.some_bind] at h
      have hrec := ih (addEntry acc k t) data h a
      have hpairs : pairsOf (hd :: tl) = (k, t) :: pairsOf tl := by
        simp [pairsOf, List.filterMap_cons, hp]
      have hla := lookup_addEntry acc k t a
      constructor
      · intro v hv
        by_cases hak : a = k
        · have hv' : List.lookup k acc = some v := by rw [← hak]; exact hv
          have h1 : (addEntry acc k t).lookup a = some (v ++ [t]) := by
            rw [hla, if_pos hak, hv']
            rfl
          have h2 := hrec.1 (v ++ [t]) h1
          rw [h2, hpairs, selectTs_cons, if_pos hak.symm]
          simp [List.append_assoc]
        · have hka : ¬ k = a := fun e => hak e.symm
          have h1 : (addEntry acc k t).lookup a = some v := by
            rw [hla, if_neg hak, hv]
          have h2 := hrec.1 v h1
          rw [h2, hpairs, selectTs_cons, if_neg hka]
      · intro hv
        by_cases hak : a = k
        · have hv' : List.lookup k acc = none := by rw [← hak]; exact hv
          have h1 : (addEntry acc k t).lookup a = some [t] := by
            rw [hla, if_pos hak, hv']
            rfl
          have h2 := hrec.1 [t] h1
          rw [h2, hpairs, selectTs_cons, if_pos hak.symm, List.any_cons]
          have hbt : ((k, t).1 == a) = true := beq_iff_eq.mpr hak.symm
          rw [hbt, Bool.true_or, if_pos rfl]
          rfl
        · have hka : ¬ k = a := fun e => hak e.symm
          have h1 : (addEntry acc k t).lookup a = none := by
            rw [hla, if_neg hak, hv]
          have h2 := hrec.2 h1
          have hbf : ((k, t).1 == a) = false := beq_eq_false_iff_ne.mpr hka
          rw [h2, hpairs, selectTs_cons, if_neg hka, List.any_cons, hbf, Bool.false_or]

/-- C3 counterexample: a line whose first three fields are not
integer-parseable is accepted by the ingestor, because only the fourth field
goes through `int(...)`; the claim's "exactly four integer-parseable fields"
failure condition is therefore wrong. -/
theorem C3_counterexample :
    pyParseInt "abc" = none ∧
    read_logfile ["abc def ghi 100"] = some [("abc:def:ghi", [100])] := by
  constructor <;> decide

/-- C3 amended: the ingestor fails iff some line does not split into exactly
four whitespace-separated fields with an integer-parseable fourth field (the
first three fields are arbitrary tokens, `parseLine` per its definition); on
success it maps each identity string `project:run:clone` to the list of that
identity's timestamps in input order. -/
theorem C3_read_logfile_spec :
    ∀ lines : List String,
      (read_logfile lines = none ↔ ∃ line ∈ lines, parseLine line = none) ∧
      ∀ data, read_logfile lines = some data → ∀ simulation_id : String,
        data.lookup simulation_id =
          if (pairsOf lines).any (fun p => p.1 == simulation_id) then
            some (selectTs (pairsOf lines) simulation_id)
          else none := by
  intro lines
  constructor
  · exact readLines_eq_none_iff lines []
  · intro data h simulation_id
    exact (readLines_lookup lines [] data h simulation_id).2 rfl

/-- C3 witness: a concrete successful ingestion, with the grouped lookup. -/
theorem C3_witness :
    ([("1797:0:0", [0, 100]), ("1797:0:1", [(0 : Int)])] :
        List (String × List Int)).lookup "1797:0:0" =
      if (pairsOf ["1797 0 0 0", "1797 0 0 100", "1797 0 1 0"]).any
          (fun p => p.1 == "1797:0:0") then
        some (selectTs (pairsOf ["1797 0 0 0", "1797 0 0 100", "1797 0 1 0"]) "1797:0:0")
      else none :=
  (C3_read_logfile_spec ["1797 0 0 0", "1797 0 0 100", "1797 0 1 0"]).2
    [("1797:0:0", [0, 100]), ("1797:0:1", [0])] (by decide) "1797:0:0"

/-! ## C6 and C7 -/

/-- Unpacking a successful `checkOne` run into its three effectful reads and
the record it builds. -/
lemma checkOne_some_elim {ts : List Int} {r : SimCheckResult} (h : checkOne ts = some r) :
    ∃ g lastOk lastTs, check_missing_guard ts = some g ∧
      is_last_ts_in_thousands (some ts) = some lastOk ∧ ts.max? = some lastTs ∧
      r = { missing_timestamps := if g then find_missing_timestamps (some ts) else none
            duplicate_timestamps := find_duplicate_timestamps (some ts)
            is_last_ts_in_thousands := lastOk
            simulation_id := ""
            last_timestamp := some lastTs } := by
  unfold checkOne at h
  cases hg : check_missing_guard ts with
  | none => rw [hg] at h; simp at h
  | some g =>
    rw [hg] at h
    simp only [Option.some_bind] at h
    cases hl : is_last_ts_in_thousands (some ts) with
    | none => rw [hl] at h; simp at h
    | some lastOk =>
      rw [hl] at h
      simp only [Option.some_bind] at h
      cases hm : ts.max? with
      | none => rw [hm] at h; simp at h
      | some lastTs =>
        rw [hm] at h
        simp only [Option.some_bind] at h
        injection h with h
        exact ⟨g, lastOk, lastTs, rfl, rfl, rfl, h.symm⟩

/-- Entries of a successful `check_data` run, paired with their sources. -/
lemma check_data_mem_zip :
    ∀ (data : List (String × List Int)) (out : List (String × SimCheckResult)),
      check_data data = some out →
      ∀ q ∈ data.zip out, q.1.1 = q.2.1 ∧ checkOne q.1.2 = some q.2.2 := by
  intro data
  induction data with
  | nil =>
    intro out h q hq
    simp only [check_data] at h
    injection h with h
    subst h
    simp at hq
  | cons hd tl ih =>
    intro out h q hq
    obtain ⟨sid, ts⟩ := hd
    simp only [check_data] at h
    cases hc : checkOne ts with
    | none => rw [hc] at h; simp at h
    | some r =>
      rw [hc] at h
      simp only [Option.some_bind] at h
      cases ht : check_data tl with
      | none => rw [ht] at h; simp at h
      | some rest =>
        rw [ht] at h
        simp only [Option.some_bind] at h
        injection h with h
        subst h
        rw [List.zip_cons_cons] at hq
        rcases List.mem_cons.mp hq with h1 | h1
        · rw [h1]
          exact ⟨rfl, hc⟩
        · exact ih rest ht q h1

/-- C6: every Check Result produced by the Checker has `last_timestamp` equal
to `max` of its source sequence, and that value is the maximum (a member that
bounds every element), not the positionally last element. -/
theorem C6_check_last_timestamp :
    ∀ (data : List (String × List Int)) (out : List (String × SimCheckResult)),
      check_data data = some out →
      ∀ q ∈ data.zip out,
        q.2.2.last_timestamp = q.1.2.max? ∧
        ∀ m : Int, q.1.2.max? = some m → m ∈ q.1.2 ∧ ∀ x ∈ q.1.2, x ≤ m := by
  intro data out h q hq
  have h2 := check_data_mem_zip data out h q hq
  obtain ⟨g, lastOk, lastTs, hg, hl, hm, hr⟩ := checkOne_some_elim h2.2
  constructor
  · rw [hr, hm]
  · intro m hm'
    exact max?_spec hm'

/-- C6 witness. -/
theorem C6_witness :
    (⟨none, some [], false, "", some 100⟩ : SimCheckResult).last_timestamp =
      [(0 : Int), 100].max? ∧
    ∀ m : Int, [(0 : Int), 100].max? = some m →
      m ∈ [(0 : Int), 100] ∧ ∀ x ∈ [(0 : Int), 100], x ≤ m :=
  C6_check_last_timestamp [("1797:0:0", [0, 100])]
    [("1797:0:0", ⟨none, some [], false, "", some 100⟩)] (by decide)
    (("1797:0:0", [0, 100]), ("1797:0:0", ⟨none, some [], false, "", some 100⟩)) (by decide)

/-- On a strictly increasing sequence whose minimum is 0, the guard of the
missing-timestamp branch evaluates to `False`. -/
lemma check_missing_guard_false (ts : List Int)
    (hinc : is_strictly_increasing (some ts) = true) (hmin : ts.min? = some 0) :
    check_missing_guard ts = some false := by
  unfold check_missing_guard
  rw [if_pos hinc, hmin]
  decide

/-- C7: the Checker assigns the missing-timestamps field only when the
sequence is not strictly increasing or its minimum is nonzero; a strictly
increasing sequence with minimum 0 keeps the field absent (`None`, not an
empty list). -/
theorem C7_missing_detection_guard :
    ∀ (data : List (String × List Int)) (out : List (String × SimCheckResult)),
      check_data data = some out →
      ∀ q ∈ data.zip out,
        is_strictly_increasing (some q.1.2) = true → q.1.2.min? = some 0 →
        q.2.2.missing_timestamps = none := by
  intro data out h q hq hinc hmin
  have h2 := check_data_mem_zip data out h q hq
  obtain ⟨g, lastOk, lastTs, hg, hl, hm, hr⟩ := checkOne_some_elim h2.2
  have hgf : check_missing_guard q.1.2 = some false := check_missing_guard_false _ hinc hmin
  rw [hg] at hgf
  injection hgf with hgf
  rw [hr, hgf]
  simp

/-- C7 witness. -/
theorem C7_witness :
    (⟨none, some [], false, "", some 200⟩ : SimCheckResult).missing_timestamps = none :=
  C7_missing_detection_guard [("1797:0:0", [0, 100, 200])]
    [("1797:0:0", ⟨none, some [], false, "", some 200⟩)] (by decide)
    (("1797:0:0", [0, 100, 200]), ("1797:0:0", ⟨none, some [], false, "", some 200⟩))
    (by decide) (by decide) (by decide)

/-! ## C8 -/

/-- Erasing an index other than the last one keeps the last element. -/
lemma getLast?_eraseIdx :
    ∀ (l : List Int) (i : Nat), i + 1 < l.length → (l.eraseIdx i).getLast? = l.getLast? := by
  intro l
  induction l with
  | nil => intro i h; simp at h
  | cons a tl ih =>
    intro i h
    cases i with
    | zero =>
      have htl : tl ≠ [] := by
        intro e
        rw [e] at h
        simp at h
      obtain ⟨b, tl', he⟩ := List.exists_cons_of_ne_nil htl
      subst he
      exact (List.getLast?_cons_cons).symm
    | succ j =>
      cases tl with
      | nil => simp at h
      | cons b tl' =>
        have hj : j + 1 < (b :: tl').length := by
          have h1 : (a :: b :: tl').length = tl'.length + 2 := by simp
          have h2 : (b :: tl').length = tl'.length + 1 := by simp
          omega
        rw [List.eraseIdx_cons_succ, List.getLast?_cons_cons]
        have h2 : (b :: tl').length = tl'.length + 1 := by simp
        have hj2 : j < (b :: tl').length := by omega
        have hne : (b :: tl').eraseIdx j ≠ [] := by
          intro e
          have hlen := congrArg List.length e
          rw [List.length_eraseIdx, if_pos hj2] at hlen
          have h3 : ([] : List Int).length = 0 := rfl
          omega
        obtain ⟨c, m, hm⟩ := List.exists_cons_of_ne_nil hne
        rw [hm, List.getLast?_cons_cons, ← hm, ih j hj]

/-- C8: removing an element that is neither first nor last from a sequence of
length at least 3 can only grow the set of missing timestamps. -/
theorem C8_find_missing_monotone :
    ∀ (ts : List Int) (i : Nat), 3 ≤ ts.length → 0 < i → i < ts.length - 1 →
      ∃ l l', find_missing_timestamps (some ts) = some l ∧
        find_missing_timestamps (some (ts.eraseIdx i)) = some l' ∧ l ⊆ l' := by
  intro ts i h3 hi0 hi1
  have hne : ts ≠ [] := by
    intro e
    rw [e] at h3
    simp at h3
  have hlen := List.length_eraseIdx ts i
  rw [if_pos (by omega)] at hlen
  have hne' : ts.eraseIdx i ≠ [] := by
    intro e
    rw [e] at hlen
    simp at hlen
    omega
  refine ⟨_, _, find_missing_eq ts hne, find_missing_eq _ hne', ?_⟩
  have hlast : (ts.eraseIdx i).getLastD 0 = ts.getLastD 0 := by
    rw [List.getLastD_eq_getLast?, List.getLastD_eq_getLast?,
      getLast?_eraseIdx ts i (by omega)]
  rw [hlast]
  intro v hv
  rw [List.mem_filter] at hv ⊢
  refine ⟨hv.1, ?_⟩
  have hv2 := hv.2
  simp only [decide_eq_true_eq] at hv2 ⊢
  intro hmem
  exact hv2 ((List.eraseIdx_sublist ts i).subset hmem)

/-- C8 witness. -/
theorem C8_witness :
    ∃ l l', find_missing_timestamps (some [0, 100, 300]) = some l ∧
      find_missing_timestamps (some ([(0 : Int), 100, 300].eraseIdx 1)) = some l' ∧
      l ⊆ l' :=
  C8_find_missing_monotone [0, 100, 300] 1 (by decide) (by decide) (by decide)

/-! ## C9 -/

/-- `isNoneOrEmpty` as a proposition. -/
lemma isNoneOrEmpty_iff (o : Option (List Int)) :
    isNoneOrEmpty o = true ↔ (o = none ∨ o = some []) := by
  cases o with
  | none => simp [isNoneOrEmpty]
  | some l => simp [isNoneOrEmpty, List.length_eq_zero]

/-- The `No issues found` condition of `print_to_file`, as a proposition. -/
lemma no_issues_cond_iff (r : SimCheckResult) :
    (isNoneOrEmpty r.missing_timestamps && isNoneOrEmpty r.duplicate_timestamps &&
      r.is_last_ts_in_thousands) = true ↔
    ((r.missing_timestamps = none ∨ r.missing_timestamps = some []) ∧
     (r.duplicate_timestamps = none ∨ r.duplicate_timestamps = some []) ∧
     r.is_last_ts_in_thousands = true) := by
  rw [Bool.and_eq_true, Bool.and_eq_true]
  constructor
  · rintro ⟨⟨h1, h2⟩, h3⟩
    exact ⟨(isNoneOrEmpty_iff _).mp h1, (isNoneOrEmpty_iff _).mp h2, h3⟩
  · rintro ⟨h1, h2, h3⟩
    exact ⟨⟨(isNoneOrEmpty_iff _).mpr h1, (isNoneOrEmpty_iff _).mpr h2⟩, h3⟩

/-- Membership in a conditional singleton. -/
lemma mem_ite_singleton {b : Bool} {x s : String}
    (h : s ∈ if b = true then [x] else ([] : List String)) : s = x := by
  rcases b with _ | _
  · simp at h
  · simpa using h

/-- The missing-timestamps issue line is never the `No issues found` line. -/
lemma missing_line_ne (s : String) :
    "\tMissing timestamps: " ++ s ≠ "\tNo issues found" := by
  intro h
  have hl := congrArg String.length h
  rw [String.length_append] at hl
  have h1 : ("\tMissing timestamps: ").length = 21 := rfl
  have h2 : ("\tNo issues found").length = 16 := rfl
  omega

/-- The duplicate-timestamps issue line is never the `No issues found` line. -/
lemma duplicate_line_ne (s : String) :
    "\tDuplicate timestamps: " ++ s ≠ "\tNo issues found" := by
  intro h
  have hl := congrArg String.length h
  rw [String.length_append] at hl
  have h1 : ("\tDuplicate timestamps: ").length = 23 := rfl
  have h2 : ("\tNo issues found").length = 16 := rfl
  omega

/-- The terminal-value issue line is never the `No issues found` line. -/
lemma last_line_ne (s : String) :
    "\tLast timestamp (" ++ s ++ "ps) is not in thousands" ≠ "\tNo issues found" := by
  intro h
  have hl := congrArg String.length h
  rw [String.length_append, String.length_append] at hl
  have h1 : ("\tLast timestamp (").length = 17 := rfl
  have h2 : ("ps) is not in thousands").length = 23 := rfl
  have h3 : ("\tNo issues found").length = 16 := rfl
  omega

/-- A successfully formatted simulation id always has the `PROJ...` shape. -/
lemma format_simulation_id_shape (simulation_id fid : String)
    (h : format_simulation_id simulation_id = some fid) :
    ∃ p r c, fid = "PROJ" ++ p ++ "/RUN" ++ r ++ "/CLONE" ++ c := by
  unfold format_simulation_id at h
  split at h
  · exact absurd h (by simp)
  · split at h
    · injection h with h
      exact ⟨_, _, _, h.symm⟩
    · exact absurd h (by simp)

/-- A formatted simulation id line is never the `No issues found` line. -/
lemma format_ne_no_issues (p r c : String) :
    "PROJ" ++ p ++ "/RUN" ++ r ++ "/CLONE" ++ c ≠ "\tNo issues found" := by
  intro h
  have hd := congrArg String.data h
  simp only [String.data_append] at hd
  simp at hd

/-- C9: a rendered simulation block contains the `No issues found` line iff
its missing list is absent or empty, its duplicate list is absent or empty,
and its terminal-value check is true; and in that case the block is exactly
the id line followed by that single line (no other issue lines). -/
theorem C9_print_no_issues :
    ∀ (simulation_id : String) (r : SimCheckResult) (lines : List String),
      render_sim simulation_id r = some lines →
      (("\tNo issues found" ∈ lines) ↔
        ((r.missing_timestamps = none ∨ r.missing_timestamps = some []) ∧
         (r.duplicate_timestamps = none ∨ r.duplicate_timestamps = some []) ∧
         r.is_last_ts_in_thousands = true)) ∧
      (((r.missing_timestamps = none ∨ r.missing_timestamps = some []) ∧
        (r.duplicate_timestamps = none ∨ r.duplicate_timestamps = some []) ∧
        r.is_last_ts_in_thousands = true) →
        ∃ fid, format_simulation_id simulation_id = some fid ∧
          lines = [fid, "\tNo issues found"]) := by
  intro simulation_id r lines h
  unfold render_sim at h
  cases hf : format_simulation_id simulation_id with
  | none => rw [hf] at h; simp at h
  | some fid =>
    rw [hf] at h
    simp only [Option.map_some'] at h
    injection h with h
    subst h
    obtain ⟨p, rr, c, hfid⟩ := format_simulation_id_shape _ _ hf
    have hfid_ne : fid ≠ "\tNo issues found" := by
      rw [hfid]
      exact format_ne_no_issues p rr c
    by_cases hcond : (isNoneOrEmpty r.missing_timestamps &&
        isNoneOrEmpty r.duplicate_timestamps && r.is_last_ts_in_thousands) = true
    · have hlines : render_sim_lines r = ["\tNo issues found"] := by
        unfold render_sim_lines
        rw [if_pos hcond]
      constructor
      · constructor
        · intro _
          exact (no_issues_cond_iff r).mp hcond
        · intro _
          rw [hlines]
          simp
      · intro _
        exact ⟨fid, rfl, by rw [hlines]⟩
    · have hnotin : "\tNo issues found" ∉ render_sim_lines r := by
        unfold render_sim_lines
        rw [if_neg hcond]
        intro hm
        rcases List.mem_append.mp hm with hm1 | hm2
        · rcases List.mem_append.mp hm1 with hma | hmb
          · exact missing_line_ne _ (mem_ite_singleton hma).symm
          · exact duplicate_line_ne _ (mem_ite_singleton hmb).symm
        · cases hb : r.is_last_ts_in_thousands with
          | true => rw [hb] at hm2; simp at hm2
          | false =>
            rw [hb] at hm2
            simp only [Bool.false_eq_true, if_false] at hm2
            rcases List.mem_singleton.mp hm2 with he
            exact last_line_ne _ he.symm
      constructor
      · constructor
        · intro hm
          rcases List.mem_cons.mp hm with h1 | h1
          · exact absurd h1.symm hfid_ne
          · exact absurd h1 hnotin
        · intro hc
          exact absurd ((no_issues_cond_iff r).mpr hc) hcond
      · intro hc
        exact absurd ((no_issues_cond_iff r).mpr hc) hcond

/-- C9 witness: a clean simulation renders the id line and `No issues found`. -/
theorem C9_witness :
    ∃ fid, format_simulation_id "1797:0:0" = some fid ∧
      ["PROJ1797/RUN0/CLONE0", "\tNo issues found"] = [fid, "\tNo issues found"] :=
  (C9_print_no_issues "1797:0:0" ⟨none, none, true, "", some 12000⟩
    ["PROJ1797/RUN0/CLONE0", "\tNo issues found"] (by decide)).2 (by decide)

/-! ## C10 -/

/-- The dict update keeps every value list nonempty. -/
lemma addEntry_forall_ne_nil (data : List (String × List Int)) (k : String) (t : Int)
    (h : ∀ p ∈ data, p.2 ≠ []) : ∀ p ∈ addEntry data k t, p.2 ≠ [] := by
  induction data with
  | nil =>
    intro p hp
    simp only [addEntry] at hp
    rw [List.mem_singleton.mp hp]
    simp
  | cons hd tl ih =>
    intro p hp
    obtain ⟨x, v⟩ := hd
    simp only [addEntry] at hp
    split at hp
    · rcases List.mem_cons.mp hp with h1 | h1
      · rw [h1]
        simp
      · exact h p (List.mem_cons_of_mem _ h1)
    · rcases List.mem_cons.mp hp with h1 | h1
      · rw [h1]
        exact h (x, v) (List.mem_cons_self _ _)
      · exact ih (fun q hq => h q (List.mem_cons_of_mem _ hq)) p h1

/-- Every value list built by the ingestion loop is nonempty. -/
lemma readLines_forall_ne_nil :
    ∀ (lines : List String) (acc data : List (String × List Int)),
      (∀ p ∈ acc, p.2 ≠ []) → readLines acc lines = some data → ∀ p ∈ data, p.2 ≠ [] := by
  intro lines
  induction lines with
  | nil =>
    intro acc data hacc h
    simp only [readLines] at h
    injection h with h
    subst h
    exact hacc
  | cons hd tl ih =>
    intro acc data hacc h
    simp only [readLines] at h
    cases hp : parseLine hd with
    | none => rw [hp] at h; simp at h
    | some q =>
      rw [hp] at h
      simp only [Option.some_bind] at h
      exact ih _ _ (addEntry_forall_ne_nil acc q.1 q.2 hacc) h

/-- On any nonempty sequence, `checkOne` cannot fail. -/
lemma checkOne_isSome_of_ne_nil (ts : List Int) (h : ts ≠ []) :
    (checkOne ts).isSome = true := by
  obtain ⟨a, tl, he⟩ := List.exists_cons_of_ne_nil h
  subst he
  have hmin : (a :: tl).min? = some (tl.foldl min a) := List.min?_cons'
  have hmax : (a :: tl).max? = some (tl.foldl max a) := List.max?_cons'
  have hl : is_last_ts_in_thousands (some (a :: tl)) =
      some (decide ((tl.foldl max a) % 1000 = 0)) := by
    simp only [is_last_ts_in_thousands]
    rw [hmax]
    rfl
  have hg : ∃ b, check_missing_guard (a :: tl) = some b := by
    by_cases hc : is_strictly_increasing (some (a :: tl)) = true
    · exact ⟨_, by unfold check_missing_guard; rw [if_pos hc, hmin]; rfl⟩
    · exact ⟨true, by unfold check_missing_guard; rw [if_neg hc]⟩
  obtain ⟨b, hb⟩ := hg
  unfold checkOne
  rw [hb, hl, hmax]
  rfl

/-- C10: every timestamp list in a successfully ingested mapping is nonempty,
so the `min`/`max` computations of the Checker and of the terminal-value check
never see an empty sequence and cannot fail on ingested data. -/
theorem C10_ingested_sequences_nonempty :
    ∀ (lines : List String) (data : List (String × List Int)),
      read_logfile lines = some data →
      ∀ p ∈ data, p.2 ≠ [] ∧ (checkOne p.2).isSome = true ∧
        p.2.min?.isSome = true ∧ p.2.max?.isSome = true ∧
        (is_last_ts_in_thousands (some p.2)).isSome = true := by
  intro lines data h p hp
  have hne : p.2 ≠ [] := readLines_forall_ne_nil lines [] data (by simp) h p hp
  obtain ⟨a, tl, he⟩ := List.exists_cons_of_ne_nil hne
  refine ⟨hne, checkOne_isSome_of_ne_nil p.2 hne, ?_, ?_, ?_⟩
  · rw [he, List.min?_cons']
    rfl
  · rw [he, List.max?_cons']
    rfl
  · rw [he]
    simp only [is_last_ts_in_thousands]
    rw [List.max?_cons']
    rfl

/-- C10 witness. -/
theorem C10_witness :
    ([(0 : Int), 100] ≠ [] ∧ (checkOne [0, 100]).isSome = true ∧
      [(0 : Int), 100].min?.isSome = true ∧ [(0 : Int), 100].max?.isSome = true ∧
      (is_last_ts_in_thousands (some [0, 100])).isSome = true) :=
  C10_ingested_sequences_nonempty ["1797 0 0 0", "1797 0 0 100", "1797 0 1 0"]
    [("1797:0:0", [0, 100]), ("1797:0:1", [0])] (by decide)
    ("1797:0:0", [0, 100]) (by decide)

